import Mathlib

/-!
Verification of the SSA graph-construction layer
(`src/cmd/compile/internal/ssa/func.go`).

The Go source mutates a `Func` in place through pointers; the embedding
makes the state explicit: every constructor takes the current `Func` and
returns the constructed entity together with the updated `Func`.  Pointers
are replaced by the stable ids the structures already carry: a `Value`
refers to its operands and to its owning block by id, a `Block` refers to
its owning function by name.

Types declared outside the provided excerpt (`Op`, `Type`, `BlockKind`,
`Config`, `Location`, the `Value`/`Block` structs and the `idAlloc`
allocator) are modelled from the spec and from their use sites in
`func.go`; each such definition says so in its doc comment.
-/

set_option linter.unusedVariables false

namespace GoSSA

/-- Modelled from the spec: the opcode token is opaque to this layer
(used only in diagnostics), so it is an abstract token type. -/
abbrev Op := Nat

/-- A distinguished opcode token standing for `OpConst` (used by `ConstInt`). -/
def OpConst : Op := 0

/-- A second opcode token, standing for an addition opcode in scenarios. -/
def OpAdd : Op := 1

/-- Modelled from the spec: the result-type token is equality-comparable but
otherwise opaque, so it is an abstract token type.  (`Type` is a reserved
word in Lean, hence the name `Ty`.) -/
abbrev Ty := Nat

/-- A distinguished result-type token standing for `Int64` in scenarios. -/
def TInt64 : Ty := 0

/-- Modelled from the spec: the block terminator kind is an opaque
enumeration declared outside the excerpt. -/
abbrev BlockKind := Nat

/-- A distinguished block kind standing for `BlockPlain` in scenarios. -/
def BlockPlain : BlockKind := 0

/-- Modelled from the spec: the architecture descriptor is an opaque
configuration token, never introspected by this core. -/
abbrev Config := Unit

/-- Modelled from the spec: register-allocation locations are produced by
later passes; this core only carries the placeholder. -/
abbrev Location := Unit

/-- The polymorphic auxiliary payload, `interface` `aux` in the source.
Modelled as a closed variant over payload kinds; the `int64` variant is the
case the source's exclusivity check tests for with `aux.(int64)`. -/
inductive Aux where
  | none
  | int64 (n : Int)
  | sym (s : String)
  | other (k : Nat)
deriving DecidableEq, Repr

/-- The source's type test `_, ok := aux.(int64)`: whether the polymorphic
payload is a 64-bit integer. -/
def Aux.isInt64 : Aux → Bool
  | .int64 _ => true
  | _ => false

/-- Modelled from the spec: `idAlloc` is declared outside the excerpt; per
the spec it holds a single counter, `next()` returns the counter and
increments it (starting at 0), `count()` returns the counter.  The source's
method names are `get` and `num`. -/
structure idAlloc where
  counter : Nat
deriving DecidableEq, Repr

/-- `idAlloc.get`: return a fresh id (the counter) and advance. -/
def idAlloc.get (a : idAlloc) : Nat × idAlloc :=
  (a.counter, { counter := a.counter + 1 })

/-- `idAlloc.num`: one past the highest issued id (0 if none issued). -/
def idAlloc.num (a : idAlloc) : Nat :=
  a.counter

/-- A `Value` is an instruction node.  Fields are those the excerpt
assigns; defaults are Go's zero values for the fields a given constructor
leaves unset.  `Args` holds operand references by value id (pointers in the
source); `Block` is the owning block's id (a back-pointer in the source).
`ArgsInline` records which operand-storage path was taken: `true` when the
source sets `v.Args = v.argstorage[:k]` (storage embedded in the Value),
`false` when it allocates an independent slice (`NewValue3`). -/
structure Value where
  ID : Nat
  Op : Op
  Typ : Ty
  AuxInt : Int := 0
  Aux : Aux := .none
  Args : List Nat := []
  ArgsInline : Bool := true
  Block : Nat
  Line : Int := 0
deriving DecidableEq, Repr

/-- A `Block` (struct declared outside the excerpt; fields modelled from the
spec and from the assignments in `Func.NewBlock`): id, terminator kind,
owning-function back-reference (by function name; a pointer in the source),
and the ordered `Values` sequence. -/
structure Block where
  ID : Nat
  Kind : BlockKind
  Func : String
  Values : List Value := []
deriving DecidableEq, Repr

/-- The `Func` struct of the source: configuration, name, signature type,
block collection, entry block (by id; a pointer in the source), the two id
allocators, and the placeholders later passes fill in. -/
structure Func where
  Config : Config
  Name : String
  Typ : Ty
  Blocks : List Block
  Entry : Nat
  bid : idAlloc
  vid : idAlloc
  RegAlloc : List Location
  FrameSize : Int
deriving DecidableEq, Repr

/-- `NumBlocks` returns an integer larger than the id of any Block in the
Func: `f.bid.num()`. -/
def Func.NumBlocks (f : Func) : Nat :=
  f.bid.num

/-- `NumValues` returns an integer larger than the id of any Value in the
Func: `f.vid.num()`. -/
def Func.NumValues (f : Func) : Nat :=
  f.vid.num

/-- `NewBlock` returns a new block of the given kind and appends it to
`f.Blocks`.  The source sets `ID`, `Kind` and the `Func` back-pointer. -/
def Func.NewBlock (f : Func) (kind : BlockKind) : Block × Func :=
  let (id, bid') := f.bid.get
  let b : Block := { ID := id, Kind := kind, Func := f.Name }
  (b, { f with bid := bid', Blocks := f.Blocks ++ [b] })

/-- In the source a value is appended to the pointed-to block's `Values`;
block ids are unique, so this is the block with the matching id.  The
embedding appends to the first (and only) block whose id matches. -/
def addValue (bID : Nat) (v : Value) : List Block → List Block
  | [] => []
  | blk :: rest =>
    if blk.ID = bID then { blk with Values := blk.Values ++ [v] } :: rest
    else blk :: addValue bID v rest

/-- `NewValue0` returns a new value in the block with no arguments and zero
aux values.  (The `line` parameter is accepted but not stored.) -/
def Block.NewValue0 (f : GoSSA.Func) (b : Nat) (line : Int) (op : Op) (t : Ty) :
    Value × GoSSA.Func :=
  let (id, vid') := f.vid.get
  let v : Value := { ID := id, Op := op, Typ := t, Block := b }
  (v, { f with vid := vid', Blocks := addValue b v f.Blocks })

/-- `NewValue0I` returns a new value in the block with no arguments and an
auxint value.  (The `line` parameter is accepted but not stored.) -/
def Block.NewValue0I (f : GoSSA.Func) (b : Nat) (line : Int) (op : Op) (t : Ty)
    (auxint : Int) : Value × GoSSA.Func :=
  let (id, vid') := f.vid.get
  let v : Value := { ID := id, Op := op, Typ := t, AuxInt := auxint, Block := b }
  (v, { f with vid := vid', Blocks := addValue b v f.Blocks })

/-- The diagnostic payload of the source's
`log.Fatalf("aux field has int64 type op=%s type=%s aux=%v", ...)`:
the fatal abort identifies the opcode, the type and the offending aux. -/
structure FatalAuxError where
  op : Op
  typ : Ty
  aux : Aux
deriving DecidableEq, Repr

/-- `NewValue0A` returns a new value in the block with no arguments and an
aux value.  The source first checks `aux.(int64)` and calls `log.Fatalf`
when it holds — a fatal, non-recoverable abort, modelled as an error result
returned together with the untouched pre-state.  On the normal path it
stores `Aux` and `Line`. -/
def Block.NewValue0A (f : GoSSA.Func) (b : Nat) (line : Int) (op : Op) (t : Ty)
    (aux : Aux) : Except FatalAuxError Value × GoSSA.Func :=
  if aux.isInt64 then
    (Except.error { op := op, typ := t, aux := aux }, f)
  else
    let (id, vid') := f.vid.get
    let v : Value := { ID := id, Op := op, Typ := t, Aux := aux, Block := b,
                       Line := line }
    (Except.ok v, { f with vid := vid', Blocks := addValue b v f.Blocks })

/-- `NewValue0IA` returns a new value in the block with no arguments and
both an auxint and aux values.  The source performs no `int64` check here
and does not store `line`. -/
def Block.NewValue0IA (f : GoSSA.Func) (b : Nat) (line : Int) (op : Op) (t : Ty)
    (auxint : Int) (aux : Aux) : Value × GoSSA.Func :=
  let (id, vid') := f.vid.get
  let v : Value := { ID := id, Op := op, Typ := t, AuxInt := auxint,
                     Aux := aux, Block := b }
  (v, { f with vid := vid', Blocks := addValue b v f.Blocks })

/-- `NewValue1` returns a new value in the block with one argument and zero
aux values.  The source stores the argument in the inline `argstorage`
(`v.Args = v.argstorage[:1]`). -/
def Block.NewValue1 (f : GoSSA.Func) (b : Nat) (line : Int) (op : Op) (t : Ty)
    (arg : Nat) : Value × GoSSA.Func :=
  let (id, vid') := f.vid.get
  let v : Value := { ID := id, Op := op, Typ := t, Args := [arg], Block := b }
  (v, { f with vid := vid', Blocks := addValue b v f.Blocks })

/-- `NewValue1I` returns a new value in the block with one argument and an
auxint value. -/
def Block.NewValue1I (f : GoSSA.Func) (b : Nat) (line : Int) (op : Op) (t : Ty)
    (auxint : Int) (arg : Nat) : Value × GoSSA.Func :=
  let (id, vid') := f.vid.get
  let v : Value := { ID := id, Op := op, Typ := t, AuxInt := auxint,
                     Args := [arg], Block := b }
  (v, { f with vid := vid', Blocks := addValue b v f.Blocks })

/-- `NewValue1A` returns a new value in the block with one argument and an
aux value.  Unlike `NewValue0A`, the source performs no `int64` check here;
it stores `Aux` and `Line`. -/
def Block.NewValue1A (f : GoSSA.Func) (b : Nat) (line : Int) (op : Op) (t : Ty)
    (aux : Aux) (arg : Nat) : Value × GoSSA.Func :=
  let (id, vid') := f.vid.get
  let v : Value := { ID := id, Op := op, Typ := t, Aux := aux,
                     Args := [arg], Block := b, Line := line }
  (v, { f with vid := vid', Blocks := addValue b v f.Blocks })

/-- `NewValue1IA` returns a new value in the block with one argument and
both an auxint and aux values.  No `int64` check, no `line` stored. -/
def Block.NewValue1IA (f : GoSSA.Func) (b : Nat) (line : Int) (op : Op) (t : Ty)
    (auxint : Int) (aux : Aux) (arg : Nat) : Value × GoSSA.Func :=
  let (id, vid') := f.vid.get
  let v : Value := { ID := id, Op := op, Typ := t, AuxInt := auxint,
                     Aux := aux, Args := [arg], Block := b }
  (v, { f with vid := vid', Blocks := addValue b v f.Blocks })

/-- `NewValue2` returns a new value in the block with two arguments and
zero aux values; it stores `Line` and uses the inline `argstorage`
(`v.Args = v.argstorage[:2]`). -/
def Block.NewValue2 (f : GoSSA.Func) (b : Nat) (line : Int) (op : Op) (t : Ty)
    (arg0 arg1 : Nat) : Value × GoSSA.Func :=
  let (id, vid') := f.vid.get
  let v : Value := { ID := id, Op := op, Typ := t, Args := [arg0, arg1],
                     Block := b, Line := line }
  (v, { f with vid := vid', Blocks := addValue b v f.Blocks })

/-- `NewValue3` returns a new value in the block with three arguments and
zero aux values; it stores `Line`.  The source allocates an independent
slice for the operands (`v.Args = []*Value...`) rather than slicing the
inline `argstorage`, hence `ArgsInline := false`. -/
def Block.NewValue3 (f : GoSSA.Func) (b : Nat) (line : Int) (op : Op) (t : Ty)
    (arg0 arg1 arg2 : Nat) : Value × GoSSA.Func :=
  let (id, vid') := f.vid.get
  let v : Value := { ID := id, Op := op, Typ := t, Args := [arg0, arg1, arg2],
                     ArgsInline := false, Block := b, Line := line }
  (v, { f with vid := vid', Blocks := addValue b v f.Blocks })

/-- `ConstInt` returns an int constant representing its argument:
`f.Entry.NewValue0I(line, OpConst, t, c)` — always homed in the entry
block, whatever block the builder is currently filling. -/
def Func.ConstInt (f : Func) (line : Int) (t : Ty) (c : Int) : Value × Func :=
  Block.NewValue0I f f.Entry line OpConst t c

/-- A freshly created function, before any block or value has been built:
empty block collection, both allocators at 0. -/
def freshFunc : Func :=
  { Config := (), Name := "f", Typ := 0, Blocks := [], Entry := 0,
    bid := { counter := 0 }, vid := { counter := 0 },
    RegAlloc := [], FrameSize := 0 }

/-- Look a block up by id in a function's block collection. -/
def findBlock (f : Func) (i : Nat) : Option Block :=
  f.Blocks.find? (fun b => b.ID == i)

/-! ## Construction traces

To reason about arbitrary sequences of block/value construction calls, a
trace is a list of construction steps; `run` folds the constructors of the
API over a starting `Func`.  Each variant carries exactly the arguments of
the corresponding source function (operands by value id). -/

/-- One construction call of the API. -/
inductive BuildStep where
  | newBlock (kind : BlockKind)
  | newValue0 (b : Nat) (line : Int) (op : Op) (t : Ty)
  | newValue0I (b : Nat) (line : Int) (op : Op) (t : Ty) (auxint : Int)
  | newValue0A (b : Nat) (line : Int) (op : Op) (t : Ty) (aux : Aux)
  | newValue0IA (b : Nat) (line : Int) (op : Op) (t : Ty) (auxint : Int) (aux : Aux)
  | newValue1 (b : Nat) (line : Int) (op : Op) (t : Ty) (arg : Nat)
  | newValue1I (b : Nat) (line : Int) (op : Op) (t : Ty) (auxint : Int) (arg : Nat)
  | newValue1A (b : Nat) (line : Int) (op : Op) (t : Ty) (aux : Aux) (arg : Nat)
  | newValue1IA (b : Nat) (line : Int) (op : Op) (t : Ty) (auxint : Int) (aux : Aux)
      (arg : Nat)
  | newValue2 (b : Nat) (line : Int) (op : Op) (t : Ty) (arg0 arg1 : Nat)
  | newValue3 (b : Nat) (line : Int) (op : Op) (t : Ty) (arg0 arg1 arg2 : Nat)
  | constInt (line : Int) (t : Ty) (c : Int)
deriving DecidableEq, Repr

/-- Execute one construction call, keeping the updated function state.
The fatal path of `NewValue0A` leaves the state untouched. -/
def applyStep (f : Func) : BuildStep → Func
  | .newBlock kind => (f.NewBlock kind).2
  | .newValue0 b line op t => (Block.NewValue0 f b line op t).2
  | .newValue0I b line op t auxint => (Block.NewValue0I f b line op t auxint).2
  | .newValue0A b line op t aux => (Block.NewValue0A f b line op t aux).2
  | .newValue0IA b line op t auxint aux =>
      (Block.NewValue0IA f b line op t auxint aux).2
  | .newValue1 b line op t arg => (Block.NewValue1 f b line op t arg).2
  | .newValue1I b line op t auxint arg =>
      (Block.NewValue1I f b line op t auxint arg).2
  | .newValue1A b line op t aux arg => (Block.NewValue1A f b line op t aux arg).2
  | .newValue1IA b line op t auxint aux arg =>
      (Block.NewValue1IA f b line op t auxint aux arg).2
  | .newValue2 b line op t arg0 arg1 => (Block.NewValue2 f b line op t arg0 arg1).2
  | .newValue3 b line op t arg0 arg1 arg2 =>
      (Block.NewValue3 f b line op t arg0 arg1 arg2).2
  | .constInt line t c => (f.ConstInt line t c).2

/-- Execute a trace of construction calls. -/
def run (f : Func) : List BuildStep → Func
  | [] => f
  | s :: rest => run (applyStep f s) rest

/-- The value ids issued by one construction call: the id of the value the
call returns (none for `newBlock`, none on the fatal path of `NewValue0A`). -/
def stepIssuedV (f : Func) : BuildStep → List Nat
  | .newBlock _ => []
  | .newValue0 b line op t => [(Block.NewValue0 f b line op t).1.ID]
  | .newValue0I b line op t auxint => [(Block.NewValue0I f b line op t auxint).1.ID]
  | .newValue0A b line op t aux =>
      match (Block.NewValue0A f b line op t aux).1 with
      | .ok v => [v.ID]
      | .error _ => []
  | .newValue0IA b line op t auxint aux =>
      [(Block.NewValue0IA f b line op t auxint aux).1.ID]
  | .newValue1 b line op t arg => [(Block.NewValue1 f b line op t arg).1.ID]
  | .newValue1I b line op t auxint arg =>
      [(Block.NewValue1I f b line op t auxint arg).1.ID]
  | .newValue1A b line op t aux arg =>
      [(Block.NewValue1A f b line op t aux arg).1.ID]
  | .newValue1IA b line op t auxint aux arg =>
      [(Block.NewValue1IA f b line op t auxint aux arg).1.ID]
  | .newValue2 b line op t arg0 arg1 =>
      [(Block.NewValue2 f b line op t arg0 arg1).1.ID]
  | .newValue3 b line op t arg0 arg1 arg2 =>
      [(Block.NewValue3 f b line op t arg0 arg1 arg2).1.ID]
  | .constInt line t c => [(f.ConstInt line t c).1.ID]

/-- The block ids issued by one construction call: the id of the block
`NewBlock` returns. -/
def stepIssuedB (f : Func) : BuildStep → List Nat
  | .newBlock kind => [(f.NewBlock kind).1.ID]
  | _ => []

/-- The value ids issued along a trace, in issue order. -/
def issuedV (f : Func) : List BuildStep → List Nat
  | [] => []
  | s :: rest => stepIssuedV f s ++ issuedV (applyStep f s) rest

/-- The block ids issued along a trace, in issue order. -/
def issuedB (f : Func) : List BuildStep → List Nat
  | [] => []
  | s :: rest => stepIssuedB f s ++ issuedB (applyStep f s) rest

/-- Whether a step draws an id from the value allocator (every value
constructor does, except `NewValue0A` on its fatal path). -/
def issuesValue : BuildStep → Bool
  | .newBlock _ => false
  | .newValue0A _ _ _ _ aux => !aux.isInt64
  | _ => true

/-- Whether a step draws an id from the block allocator. -/
def isNewBlock : BuildStep → Bool
  | .newBlock _ => true
  | _ => false

/-! ## Observations used by the invariant claims -/

/-- The ids of the blocks in the function's collection, in collection order. -/
def blockIDs (f : Func) : List Nat :=
  f.Blocks.map Block.ID

/-- The ids of all values held by a list of blocks, block by block. -/
def blocksValueIDs (l : List Block) : List Nat :=
  (l.map (fun b => b.Values.map Value.ID)).flatten

/-- The ids of all values of the function, block by block. -/
def allValueIDs (f : Func) : List Nat :=
  blocksValueIDs f.Blocks

/-- The structural invariant of a function under construction: block ids
are unique, below the block allocator, and every block points back to its
function; value ids are unique across the whole function and below the
value allocator; every value points back to the block that holds it; and
each block's sequence is in creation (id) order. -/
structure CoreInv (f : Func) : Prop where
  blockIDsNodup : (blockIDs f).Nodup
  blockIDsLt : ∀ b ∈ f.Blocks, b.ID < f.bid.counter
  blockFuncRef : ∀ b ∈ f.Blocks, b.Func = f.Name
  valueIDsNodup : (allValueIDs f).Nodup
  valueIDsLt : ∀ b ∈ f.Blocks, ∀ v ∈ b.Values, v.ID < f.vid.counter
  valueBlockRef : ∀ b ∈ f.Blocks, ∀ v ∈ b.Values, v.Block = b.ID
  valueCreationOrder : ∀ b ∈ f.Blocks,
    List.Chain' (fun u w : Value => u.ID < w.ID) b.Values

/-- `f'` keeps every block of `f` — same id, kind and back-reference — and
only ever extends a block's value sequence at its end: nothing this core
does removes or relocates a block or a value. -/
def extendsBlocks (f f' : Func) : Prop :=
  ∀ b ∈ f.Blocks, ∃ b' ∈ f'.Blocks,
    b'.ID = b.ID ∧ b'.Kind = b.Kind ∧ b'.Func = b.Func ∧
    ∃ t : List Value, b'.Values = b.Values ++ t

/-! ## The constructor-variant catalog -/

/-- Operand arities the spec asks constructor variants for. -/
inductive NArity where
  | arity0 | arity1 | arity2 | arity3 | arityN
deriving DecidableEq, Repr

/-- Auxiliary-field combinations the spec asks constructor variants for. -/
inductive AuxCombo where
  | noAux | intOnly | payloadOnly | intAndPayload
deriving DecidableEq, Repr

/-- The catalog of Value-constructor variants the source actually provides,
one entry per function:
`NewValue0`, `NewValue0I`, `NewValue0A`, `NewValue0IA`,
`NewValue1`, `NewValue1I`, `NewValue1A`, `NewValue1IA`,
`NewValue2`, `NewValue3`.  `ConstInt` delegates to `NewValue0I` and adds no
new signature; the source has no constructor of arity above 3. -/
def providedVariants : List (NArity × AuxCombo) :=
  [(.arity0, .noAux), (.arity0, .intOnly), (.arity0, .payloadOnly),
   (.arity0, .intAndPayload),
   (.arity1, .noAux), (.arity1, .intOnly), (.arity1, .payloadOnly),
   (.arity1, .intAndPayload),
   (.arity2, .noAux), (.arity3, .noAux)]

/-- A small concrete function used to instantiate theorems: one plain
block, which is the entry block (id 0). -/
def entryFunc : Func :=
  (Func.NewBlock freshFunc BlockPlain).2

/-- A small concrete trace used to instantiate the trace theorems: two
blocks, three values in block 0 (one via `ConstInt`), one value in block 1,
and one fatal `NewValue0A` call that issues nothing. -/
def demoTrace : List BuildStep :=
  [.newBlock BlockPlain, .newBlock BlockPlain,
   .newValue0I 0 1 OpConst TInt64 5, .newValue0I 0 1 OpConst TInt64 7,
   .newValue0A 0 2 OpAdd TInt64 (Aux.int64 5),
   .newValue2 0 2 OpAdd TInt64 1 2,
   .newValue1 1 3 OpAdd TInt64 3,
   .constInt 4 TInt64 9]

/-- Scenario of §8 of the spec, step 1: `b0 = f.NewBlock(Plain)` on a fresh
function. -/
def scenarioP0 : Block × Func :=
  Func.NewBlock freshFunc BlockPlain

/-- The scenario's block `b0`. -/
def scenarioB0 : Block :=
  scenarioP0.1

/-- Scenario step 2: `v1 = b0.NewValue0I(Const, Int64, 5)`. -/
def scenarioP1 : Value × Func :=
  Block.NewValue0I scenarioP0.2 scenarioB0.ID 1 OpConst TInt64 5

/-- The scenario's value `v1`. -/
def scenarioV1 : Value :=
  scenarioP1.1

/-- Scenario step 3: `v2 = b0.NewValue0I(Const, Int64, 7)`. -/
def scenarioP2 : Value × Func :=
  Block.NewValue0I scenarioP1.2 scenarioB0.ID 1 OpConst TInt64 7

/-- The scenario's value `v2`. -/
def scenarioV2 : Value :=
  scenarioP2.1

/-- Scenario step 4: `v3 = b0.NewValue2(Add, Int64, v1, v2)`. -/
def scenarioP3 : Value × Func :=
  Block.NewValue2 scenarioP2.2 scenarioB0.ID 1 OpAdd TInt64 scenarioV1.ID
    scenarioV2.ID

/-- The scenario's value `v3`. -/
def scenarioV3 : Value :=
  scenarioP3.1

/-- The scenario's final function state. -/
def scenarioF : Func :=
  scenarioP3.2

/-! ## Allocator lemmas -/

theorem stepIssuedV_eq (f : Func) (s : BuildStep) :
    stepIssuedV f s = if issuesValue s then [f.vid.counter] else [] := by
  cases s
  case newValue0A b line op t aux =>
    cases haux : aux.isInt64 <;>
      simp [stepIssuedV, issuesValue, Block.NewValue0A, haux, idAlloc.get]
  all_goals rfl

theorem stepIssuedB_eq (f : Func) (s : BuildStep) :
    stepIssuedB f s = if isNewBlock s then [f.bid.counter] else [] := by
  cases s <;> rfl

theorem applyStep_vid (f : Func) (s : BuildStep) :
    (applyStep f s).vid =
      { counter := f.vid.counter + (if issuesValue s then 1 else 0) } := by
  cases s
  case newValue0A b line op t aux =>
    cases haux : aux.isInt64 <;>
      simp [applyStep, issuesValue, Block.NewValue0A, haux, idAlloc.get]
  all_goals rfl

theorem applyStep_bid (f : Func) (s : BuildStep) :
    (applyStep f s).bid =
      { counter := f.bid.counter + (if isNewBlock s then 1 else 0) } := by
  cases s
  case newValue0A b line op t aux =>
    cases haux : aux.isInt64 <;>
      simp [applyStep, isNewBlock, Block.NewValue0A, haux, idAlloc.get]
  all_goals rfl

theorem issuedV_eq_range' (steps : List BuildStep) : ∀ f : Func,
    issuedV f steps = List.range' f.vid.counter (steps.countP issuesValue) := by
  induction steps with
  | nil => intro f; rfl
  | cons s rest ih =>
    intro f
    simp only [issuedV, stepIssuedV_eq, ih, applyStep_vid, List.countP_cons]
    cases h : issuesValue s <;> simp [h, List.range'_succ]

theorem issuedB_eq_range' (steps : List BuildStep) : ∀ f : Func,
    issuedB f steps = List.range' f.bid.counter (steps.countP isNewBlock) := by
  induction steps with
  | nil => intro f; rfl
  | cons s rest ih =>
    intro f
    simp only [issuedB, stepIssuedB_eq, ih, applyStep_bid, List.countP_cons]
    cases h : isNewBlock s <;> simp [h, List.range'_succ]

theorem run_vid (steps : List BuildStep) : ∀ f : Func,
    (run f steps).vid.counter = f.vid.counter + steps.countP issuesValue := by
  induction steps with
  | nil => intro f; rfl
  | cons s rest ih =>
    intro f
    simp only [run, ih, applyStep_vid, List.countP_cons]
    cases h : issuesValue s <;> simp [h] <;> omega

theorem run_bid (steps : List BuildStep) : ∀ f : Func,
    (run f steps).bid.counter = f.bid.counter + steps.countP isNewBlock := by
  induction steps with
  | nil => intro f; rfl
  | cons s rest ih =>
    intro f
    simp only [run, ih, applyStep_bid, List.countP_cons]
    cases h : isNewBlock s <;> simp [h] <;> omega

/-- C3: for any sequence of construction calls on one `Func`, the value ids
issued by the `NewValue*` constructors are exactly `0, 1, 2, …` in order —
strictly increasing, no repeats, first id 0 — and `NumValues()` is one past
the maximum issued value id (0 if none was issued); likewise for block ids
issued by `NewBlock` and `NumBlocks()`.  (The equation with `List.range`
states all of it: the issued ids, in issue order, are
`0 … count-1` and the reported count is their number.) -/
theorem c3_id_allocation (steps : List BuildStep) :
    issuedV freshFunc steps = List.range ((run freshFunc steps).NumValues) ∧
    issuedB freshFunc steps = List.range ((run freshFunc steps).NumBlocks) ∧
    List.Chain' (· < ·) (issuedV freshFunc steps) ∧
    (issuedV freshFunc steps).Nodup ∧
    List.Chain' (· < ·) (issuedB freshFunc steps) ∧
    (issuedB freshFunc steps).Nodup := by
  have hv : issuedV freshFunc steps = List.range (steps.countP issuesValue) := by
    rw [issuedV_eq_range' steps freshFunc]
    exact (List.range_eq_range' _).symm
  have hb : issuedB freshFunc steps = List.range (steps.countP isNewBlock) := by
    rw [issuedB_eq_range' steps freshFunc]
    exact (List.range_eq_range' _).symm
  have hnv : (run freshFunc steps).NumValues = steps.countP issuesValue := by
    show (run freshFunc steps).vid.counter = _
    rw [run_vid steps freshFunc]
    exact Nat.zero_add _
  have hnb : (run freshFunc steps).NumBlocks = steps.countP isNewBlock := by
    show (run freshFunc steps).bid.counter = _
    rw [run_bid steps freshFunc]
    exact Nat.zero_add _
  refine ⟨by rw [hv, hnv], by rw [hb, hnb], ?_, ?_, ?_, ?_⟩
  · rw [hv]; exact (List.pairwise_lt_range _).chain'
  · rw [hv]; exact List.nodup_range _
  · rw [hb]; exact (List.pairwise_lt_range _).chain'
  · rw [hb]; exact List.nodup_range _

/-- C1 (corrected): the claim names `NewValue0A`, `NewValue0IA`,
`NewValue1A` and `NewValue1IA` as all aborting on a 64-bit-integer payload,
but the source checks `aux.(int64)` only in `NewValue0A`.  This theorem
proves the amended claim: `NewValue0A` aborts fatally with an error naming
the opcode and type and leaves the state untouched, while `NewValue0IA`,
`NewValue1A` and `NewValue1IA` perform no check and return a constructed
Value carrying the integer payload. -/
theorem c1_amended_exclusivity :
    (∀ (f : Func) (b : Nat) (line : Int) (op : Op) (t : Ty) (n : Int),
        Block.NewValue0A f b line op t (Aux.int64 n) =
          (Except.error { op := op, typ := t, aux := Aux.int64 n }, f)) ∧
    (∀ (f : Func) (b : Nat) (line : Int) (op : Op) (t : Ty) (auxint n : Int),
        (Block.NewValue0IA f b line op t auxint (Aux.int64 n)).1.Aux =
          Aux.int64 n) ∧
    (∀ (f : Func) (b : Nat) (line : Int) (op : Op) (t : Ty) (n : Int) (a0 : Nat),
        (Block.NewValue1A f b line op t (Aux.int64 n) a0).1.Aux = Aux.int64 n) ∧
    (∀ (f : Func) (b : Nat) (line : Int) (op : Op) (t : Ty) (auxint n : Int)
        (a0 : Nat),
        (Block.NewValue1IA f b line op t auxint (Aux.int64 n) a0).1.Aux =
          Aux.int64 n) := by
  refine ⟨?_, ?_, ?_, ?_⟩ <;> intros <;> rfl

/-- C1 counterexample: `NewValue1A` called with the 64-bit-integer payload
`Aux.int64 5` does not abort — it returns a Value carrying that payload,
appends it to the block, and advances the value-id allocator, contrary to
the claim that no such call returns a Value. -/
theorem c1_counterexample :
    (Block.NewValue1A entryFunc 0 0 OpAdd TInt64 (Aux.int64 5) 0).1.Aux =
      Aux.int64 5 ∧
    (Block.NewValue1A entryFunc 0 0 OpAdd TInt64 (Aux.int64 5) 0).2.NumValues = 1 ∧
    (findBlock (Block.NewValue1A entryFunc 0 0 OpAdd TInt64 (Aux.int64 5) 0).2
        0).map (fun b => b.Values.map Value.ID) = some [0] := by
  decide

/-- C2: on the fatal auxiliary-exclusivity path — `NewValue0A`, the one
constructor with that path (see C1), given a 64-bit-integer payload — the
abort happens before any state change: the returned function state is the
input state itself (so no Value is in any block's sequence that was not
there before, and the value-id allocator counter is unchanged), and no
Value is returned, only the error naming opcode and type. -/
theorem c2_fatal_no_state_change :
    ∀ (f : Func) (b : Nat) (line : Int) (op : Op) (t : Ty) (n : Int),
      (Block.NewValue0A f b line op t (Aux.int64 n)).2 = f ∧
      (Block.NewValue0A f b line op t (Aux.int64 n)).1 =
        Except.error { op := op, typ := t, aux := Aux.int64 n } := by
  intros
  exact ⟨rfl, rfl⟩

/-- C4: the scenario — `b0 = f.NewBlock(Plain)`;
`v1 = b0.NewValue0I(Const, Int64, 5)`; `v2 = b0.NewValue0I(Const, Int64, 7)`;
`v3 = b0.NewValue2(Add, Int64, v1, v2)` — yields `v3.Args = [v1, v2]`,
`f.NumValues() = 3`, `f.NumBlocks() = 1`, and `v1, v2, v3` in exactly that
order in `b0`'s Value sequence. -/
theorem c4_scenario :
    scenarioV3.Args = [scenarioV1.ID, scenarioV2.ID] ∧
    scenarioF.NumValues = 3 ∧
    scenarioF.NumBlocks = 1 ∧
    (findBlock scenarioF scenarioB0.ID).map (fun b => b.Values.map Value.ID) =
      some [scenarioV1.ID, scenarioV2.ID, scenarioV3.ID] := by
  decide

/-- C5: for every constructor variant the source provides, the operand
list of the built Value is exactly the list of supplied operands — length
`n` and `i`-th entry the `i`-th operand — on the inline-storage path
(arity 0–2) and on the separately-allocated path (`NewValue3`) alike.
(No constructor of arity above 3 exists; `ConstInt` delegates to
`NewValue0I`.) -/
theorem c5_operand_readback :
    (∀ (f : Func) (b : Nat) (line : Int) (op : Op) (t : Ty) (aux : Aux),
        aux.isInt64 = false →
        (Block.NewValue0A f b line op t aux).1.map Value.Args = Except.ok []) ∧
    (∀ (f : Func) (b : Nat) (line : Int) (op : Op) (t : Ty),
        (Block.NewValue0 f b line op t).1.Args = []) ∧
    (∀ (f : Func) (b : Nat) (line : Int) (op : Op) (t : Ty) (auxint : Int),
        (Block.NewValue0I f b line op t auxint).1.Args = []) ∧
    (∀ (f : Func) (b : Nat) (line : Int) (op : Op) (t : Ty) (auxint : Int)
        (aux : Aux),
        (Block.NewValue0IA f b line op t auxint aux).1.Args = []) ∧
    (∀ (f : Func) (b : Nat) (line : Int) (op : Op) (t : Ty) (a0 : Nat),
        (Block.NewValue1 f b line op t a0).1.Args = [a0]) ∧
    (∀ (f : Func) (b : Nat) (line : Int) (op : Op) (t : Ty) (auxint : Int)
        (a0 : Nat),
        (Block.NewValue1I f b line op t auxint a0).1.Args = [a0]) ∧
    (∀ (f : Func) (b : Nat) (line : Int) (op : Op) (t : Ty) (aux : Aux)
        (a0 : Nat),
        (Block.NewValue1A f b line op t aux a0).1.Args = [a0]) ∧
    (∀ (f : Func) (b : Nat) (line : Int) (op : Op) (t : Ty) (auxint : Int)
        (aux : Aux) (a0 : Nat),
        (Block.NewValue1IA f b line op t auxint aux a0).1.Args = [a0]) ∧
    (∀ (f : Func) (b : Nat) (line : Int) (op : Op) (t : Ty) (a0 a1 : Nat),
        (Block.NewValue2 f b line op t a0 a1).1.Args = [a0, a1]) ∧
    (∀ (f : Func) (b : Nat) (line : Int) (op : Op) (t : Ty) (a0 a1 a2 : Nat),
        (Block.NewValue3 f b line op t a0 a1 a2).1.Args = [a0, a1, a2]) := by
  refine ⟨?_, ?_, ?_, ?_, ?_, ?_, ?_, ?_, ?_, ?_⟩
  · intro f b line op t aux h
    simp [Block.NewValue0A, h, Except.map]
  all_goals intros <;> rfl

/-- C5 witness: the first conjunct (the one with a hypothesis) evaluated at
a concrete non-integer payload. -/
theorem c5_witness :
    (Block.NewValue0A freshFunc 0 0 OpAdd TInt64 (Aux.sym "x")).1.map
      Value.Args = Except.ok [] :=
  c5_operand_readback.1 freshFunc 0 0 OpAdd TInt64 (Aux.sym "x") rfl

/-- C8 (corrected): the claim says arities 0 through 3 all use storage
embedded in the Value; in the source only arities 0–2 slice the inline
`argstorage`, while `NewValue3` allocates an independent operand slice.
Amended: arity 0–2 constructors use the embedded storage, the arity-3
constructor uses an independently allocated sequence, and no constructor of
arity above 3 exists. -/
theorem c8_amended_storage :
    (∀ (f : Func) (b : Nat) (line : Int) (op : Op) (t : Ty) (aux : Aux),
        aux.isInt64 = false →
        (Block.NewValue0A f b line op t aux).1.map Value.ArgsInline =
          Except.ok true) ∧
    (∀ (f : Func) (b : Nat) (line : Int) (op : Op) (t : Ty),
        (Block.NewValue0 f b line op t).1.ArgsInline = true) ∧
    (∀ (f : Func) (b : Nat) (line : Int) (op : Op) (t : Ty) (auxint : Int),
        (Block.NewValue0I f b line op t auxint).1.ArgsInline = true) ∧
    (∀ (f : Func) (b : Nat) (line : Int) (op : Op) (t : Ty) (auxint : Int)
        (aux : Aux),
        (Block.NewValue0IA f b line op t auxint aux).1.ArgsInline = true) ∧
    (∀ (f : Func) (b : Nat) (line : Int) (op : Op) (t : Ty) (a0 : Nat),
        (Block.NewValue1 f b line op t a0).1.ArgsInline = true) ∧
    (∀ (f : Func) (b : Nat) (line : Int) (op : Op) (t : Ty) (auxint : Int)
        (a0 : Nat),
        (Block.NewValue1I f b line op t auxint a0).1.ArgsInline = true) ∧
    (∀ (f : Func) (b : Nat) (line : Int) (op : Op) (t : Ty) (aux : Aux)
        (a0 : Nat),
        (Block.NewValue1A f b line op t aux a0).1.ArgsInline = true) ∧
    (∀ (f : Func) (b : Nat) (line : Int) (op : Op) (t : Ty) (auxint : Int)
        (aux : Aux) (a0 : Nat),
        (Block.NewValue1IA f b line op t auxint aux a0).1.ArgsInline = true) ∧
    (∀ (f : Func) (b : Nat) (line : Int) (op : Op) (t : Ty) (a0 a1 : Nat),
        (Block.NewValue2 f b line op t a0 a1).1.ArgsInline = true) ∧
    (∀ (f : Func) (b : Nat) (line : Int) (op : Op) (t : Ty) (a0 a1 a2 : Nat),
        (Block.NewValue3 f b line op t a0 a1 a2).1.ArgsInline = false) := by
  refine ⟨?_, ?_, ?_, ?_, ?_, ?_, ?_, ?_, ?_, ?_⟩
  · intro f b line op t aux h
    simp [Block.NewValue0A, h, Except.map]
  all_goals intros <;> rfl

/-- C8 witness: the hypothesis-bearing conjunct evaluated at a concrete
non-integer payload. -/
theorem c8_witness :
    (Block.NewValue0A freshFunc 0 0 OpAdd TInt64 (Aux.sym "y")).1.map
      Value.ArgsInline = Except.ok true :=
  c8_amended_storage.1 freshFunc 0 0 OpAdd TInt64 (Aux.sym "y") rfl

/-- C8 counterexample: the arity-3 constructor stores its operand list in
an independently allocated sequence, not in the Value's embedded storage,
refuting the claim for arity 3. -/
theorem c8_counterexample :
    (Block.NewValue3 freshFunc 0 0 OpAdd TInt64 0 1 2).1.ArgsInline = false ∧
    (Block.NewValue3 freshFunc 0 0 OpAdd TInt64 0 1 2).1.Args.length = 3 := by
  decide

/-- C9 (corrected): the constructor surface covers all four auxiliary
combinations at arities 0 and 1, but only the no-auxiliary variant at
arities 2 and 3, and no unbounded-arity variant at all. -/
theorem c9_amended_catalog :
    ∀ (a : NArity) (c : AuxCombo),
      (a, c) ∈ providedVariants ↔
        a = NArity.arity0 ∨ a = NArity.arity1 ∨
          ((a = NArity.arity2 ∨ a = NArity.arity3) ∧ c = AuxCombo.noAux) := by
  intro a c
  cases a <;> cases c <;> decide

/-- C9 counterexample: two of the arity-and-auxiliary pairs the claim
requires have no constructor: (arity 2, integer-only) and (unbounded arity,
no auxiliary). -/
theorem c9_counterexample :
    (NArity.arity2, AuxCombo.intOnly) ∉ providedVariants ∧
    (NArity.arityN, AuxCombo.noAux) ∉ providedVariants := by
  decide

/-- C10 (corrected): the claim says only `NewValue0A`, `NewValue1A` and
`NewValue2` store the source position, with `NewValue3` among those that
ignore it; in the source `NewValue3` stores it as well.  Amended:
`NewValue0A`, `NewValue1A`, `NewValue2` and `NewValue3` store the supplied
line; `NewValue0`, `NewValue0I`, `NewValue0IA`, `NewValue1`, `NewValue1I`
and `NewValue1IA` ignore it, leaving `Line` at the zero value. -/
theorem c10_amended_line :
    (∀ (f : Func) (b : Nat) (line : Int) (op : Op) (t : Ty) (aux : Aux),
        aux.isInt64 = false →
        (Block.NewValue0A f b line op t aux).1.map Value.Line =
          Except.ok line) ∧
    (∀ (f : Func) (b : Nat) (line : Int) (op : Op) (t : Ty) (aux : Aux)
        (a0 : Nat),
        (Block.NewValue1A f b line op t aux a0).1.Line = line) ∧
    (∀ (f : Func) (b : Nat) (line : Int) (op : Op) (t : Ty) (a0 a1 : Nat),
        (Block.NewValue2 f b line op t a0 a1).1.Line = line) ∧
    (∀ (f : Func) (b : Nat) (line : Int) (op : Op) (t : Ty) (a0 a1 a2 : Nat),
        (Block.NewValue3 f b line op t a0 a1 a2).1.Line = line) ∧
    (∀ (f : Func) (b : Nat) (line : Int) (op : Op) (t : Ty),
        (Block.NewValue0 f b line op t).1.Line = 0) ∧
    (∀ (f : Func) (b : Nat) (line : Int) (op : Op) (t : Ty) (auxint : Int),
        (Block.NewValue0I f b line op t auxint).1.Line = 0) ∧
    (∀ (f : Func) (b : Nat) (line : Int) (op : Op) (t : Ty) (auxint : Int)
        (aux : Aux),
        (Block.NewValue0IA f b line op t auxint aux).1.Line = 0) ∧
    (∀ (f : Func) (b : Nat) (line : Int) (op : Op) (t : Ty) (a0 : Nat),
        (Block.NewValue1 f b line op t a0).1.Line = 0) ∧
    (∀ (f : Func) (b : Nat) (line : Int) (op : Op) (t : Ty) (auxint : Int)
        (a0 : Nat),
        (Block.NewValue1I f b line op t auxint a0).1.Line = 0) ∧
    (∀ (f : Func) (b : Nat) (line : Int) (op : Op) (t : Ty) (auxint : Int)
        (aux : Aux) (a0 : Nat),
        (Block.NewValue1IA f b line op t auxint aux a0).1.Line = 0) := by
  refine ⟨?_, ?_, ?_, ?_, ?_, ?_, ?_, ?_, ?_, ?_⟩
  · intro f b line op t aux h
    simp [Block.NewValue0A, h, Except.map]
  all_goals intros <;> rfl

/-- C10 witness: the hypothesis-bearing conjunct evaluated at a concrete
non-integer payload and line 7. -/
theorem c10_witness :
    (Block.NewValue0A freshFunc 0 7 OpAdd TInt64 (Aux.sym "g")).1.map
      Value.Line = Except.ok 7 :=
  c10_amended_line.1 freshFunc 0 7 OpAdd TInt64 (Aux.sym "g") rfl

/-- C10 counterexample: `NewValue3` called with line 7 produces a Value
whose `Line` is 7, not the zero value the claim requires. -/
theorem c10_counterexample :
    (Block.NewValue3 freshFunc 0 7 OpAdd TInt64 0 1 2).1.Line = 7 ∧
    (Block.NewValue3 freshFunc 0 7 OpAdd TInt64 0 1 2).1.Line ≠ 0 := by
  decide

/-! ## Lemmas about `addValue` -/

theorem addValue_map_ID (bID : Nat) (v : Value) (l : List Block) :
    (addValue bID v l).map Block.ID = l.map Block.ID := by
  induction l with
  | nil => rfl
  | cons blk rest ih =>
    by_cases h : blk.ID = bID <;> simp [addValue, h, ih]

theorem mem_addValue (bID : Nat) (v : Value) (l : List Block) (b' : Block)
    (h : b' ∈ addValue bID v l) :
    b' ∈ l ∨ ∃ b ∈ l, b.ID = bID ∧ b' = { b with Values := b.Values ++ [v] } := by
  induction l with
  | nil => simp [addValue] at h
  | cons blk rest ih =>
    by_cases hb : blk.ID = bID
    · simp only [addValue, if_pos hb, List.mem_cons] at h
      rcases h with h | h
      · exact Or.inr ⟨blk, List.mem_cons_self _ _, hb, h⟩
      · exact Or.inl (List.mem_cons_of_mem _ h)
    · simp only [addValue, if_neg hb, List.mem_cons] at h
      rcases h with h | h
      · exact Or.inl (by simp [h])
      · rcases ih h with h' | ⟨b, hbmem, hbid, hb'⟩
        · exact Or.inl (List.mem_cons_of_mem _ h')
        · exact Or.inr ⟨b, List.mem_cons_of_mem _ hbmem, hbid, hb'⟩

theorem blocksValueIDs_addValue (bID : Nat) (v : Value) (l : List Block) :
    blocksValueIDs (addValue bID v l) = blocksValueIDs l ∨
    (blocksValueIDs (addValue bID v l)).Perm (v.ID :: blocksValueIDs l) := by
  induction l with
  | nil => exact Or.inl rfl
  | cons blk rest ih =>
    by_cases h : blk.ID = bID
    · right
      simp only [addValue, if_pos h, blocksValueIDs, List.map_cons,
        List.flatten_cons, List.map_append, List.map_cons, List.map_nil]
      rw [List.append_assoc]
      exact List.perm_middle
    · rcases ih with ih' | ih'
      · left
        simp only [addValue, if_neg h, blocksValueIDs, List.map_cons,
          List.flatten_cons] at ih' ⊢
        rw [ih']
      · right
        simp only [addValue, if_neg h, blocksValueIDs, List.map_cons,
          List.flatten_cons] at ih' ⊢
        exact (List.Perm.append_left _ ih').trans List.perm_middle

theorem mem_blocksValueIDs (l : List Block) (x : Nat) :
    x ∈ blocksValueIDs l ↔ ∃ b ∈ l, ∃ w ∈ b.Values, w.ID = x := by
  simp only [blocksValueIDs, List.mem_flatten, List.mem_map]
  constructor
  · rintro ⟨ids, ⟨b, hb, rfl⟩, hx⟩
    rcases List.mem_map.mp hx with ⟨w, hw, rfl⟩
    exact ⟨b, hb, w, hw, rfl⟩
  · rintro ⟨b, hb, w, hw, rfl⟩
    exact ⟨b.Values.map Value.ID, ⟨b, hb, rfl⟩, List.mem_map_of_mem _ hw⟩

theorem addValue_extends (bID : Nat) (v : Value) (l : List Block) (b : Block)
    (hb : b ∈ l) :
    ∃ b' ∈ addValue bID v l,
      b'.ID = b.ID ∧ b'.Kind = b.Kind ∧ b'.Func = b.Func ∧
      ∃ t : List Value, b'.Values = b.Values ++ t := by
  induction l with
  | nil => cases hb
  | cons blk rest ih =>
    rcases List.mem_cons.mp hb with rfl | h
    · by_cases hid : b.ID = bID
      · refine ⟨{ b with Values := b.Values ++ [v] }, ?_, rfl, rfl, rfl, [v], rfl⟩
        simp [addValue, hid]
      · refine ⟨b, ?_, rfl, rfl, rfl, [], (List.append_nil _).symm⟩
        simp [addValue, hid]
    · by_cases hid : blk.ID = bID
      · refine ⟨b, ?_, rfl, rfl, rfl, [], (List.append_nil _).symm⟩
        simp only [addValue, if_pos hid]
        exact List.mem_cons_of_mem _ h
      · rcases ih h with ⟨b', hb', h1, h2, h3, t, ht⟩
        refine ⟨b', ?_, h1, h2, h3, t, ht⟩
        simp only [addValue, if_neg hid]
        exact List.mem_cons_of_mem _ hb'

theorem find?_addValue (i : Nat) (v : Value) (l : List Block) (b : Block)
    (h : l.find? (fun blk => blk.ID == i) = some b) :
    (addValue i v l).find? (fun blk => blk.ID == i) =
      some { b with Values := b.Values ++ [v] } := by
  induction l with
  | nil => simp at h
  | cons blk rest ih =>
    by_cases hid : blk.ID = i
    · rw [List.find?_cons_of_pos _ (by simp [hid])] at h
      injection h with h
      subst h
      simp only [addValue, if_pos hid]
      exact List.find?_cons_of_pos _ (by simp [hid])
    · rw [List.find?_cons_of_neg _ (by simp [hid])] at h
      simp only [addValue, if_neg hid]
      rw [List.find?_cons_of_neg _ (by simp [hid])]
      exact ih h

/-! ## Preservation of the structural invariant -/

theorem coreInv_addValue (f : Func) (bID : Nat) (v : Value)
    (hID : v.ID = f.vid.counter) (hBlk : v.Block = bID) (inv : CoreInv f) :
    CoreInv { f with vid := { counter := f.vid.counter + 1 },
                     Blocks := addValue bID v f.Blocks } := by
  constructor
  · show ((addValue bID v f.Blocks).map Block.ID).Nodup
    rw [addValue_map_ID]
    exact inv.blockIDsNodup
  · intro b' hb'
    rcases mem_addValue _ _ _ _ hb' with h | ⟨b, hbmem, _, rfl⟩
    · exact inv.blockIDsLt b' h
    · exact inv.blockIDsLt b hbmem
  · intro b' hb'
    rcases mem_addValue _ _ _ _ hb' with h | ⟨b, hbmem, _, rfl⟩
    · exact inv.blockFuncRef b' h
    · exact inv.blockFuncRef b hbmem
  · show (blocksValueIDs (addValue bID v f.Blocks)).Nodup
    rcases blocksValueIDs_addValue bID v f.Blocks with h | h
    · rw [h]; exact inv.valueIDsNodup
    · refine h.symm.nodup ?_
      rw [List.nodup_cons]
      refine ⟨?_, inv.valueIDsNodup⟩
      intro hmem
      rcases (mem_blocksValueIDs _ _).mp hmem with ⟨b, hbmem, w, hw, hwid⟩
      have := inv.valueIDsLt b hbmem w hw
      omega
  · intro b' hb' w hw
    rcases mem_addValue _ _ _ _ hb' with h | ⟨b, hbmem, _, rfl⟩
    · exact Nat.lt_succ_of_lt (inv.valueIDsLt b' h w hw)
    · rcases List.mem_append.mp hw with h | h
      · exact Nat.lt_succ_of_lt (inv.valueIDsLt b hbmem w h)
      · have hwv : w = v := by simpa using h
        subst hwv
        rw [hID]
        exact Nat.lt_succ_self _
  · intro b' hb' w hw
    rcases mem_addValue _ _ _ _ hb' with h | ⟨b, hbmem, hbid, rfl⟩
    · exact inv.valueBlockRef b' h w hw
    · rcases List.mem_append.mp hw with h | h
      · exact inv.valueBlockRef b hbmem w h
      · have hwv : w = v := by simpa using h
        subst hwv
        show w.Block = b.ID
        rw [hBlk, hbid]
  · intro b' hb'
    rcases mem_addValue _ _ _ _ hb' with h | ⟨b, hbmem, _, rfl⟩
    · exact inv.valueCreationOrder b' h
    · refine (inv.valueCreationOrder b hbmem).append (List.chain'_singleton _) ?_
      intro x hx y hy
      have hyv : v = y := by simpa using hy
      subst hyv
      have hxmem := List.mem_of_mem_getLast? hx
      have hlt := inv.valueIDsLt b hbmem x hxmem
      rw [hID]
      exact hlt

theorem coreInv_newBlock (f : Func) (kind : BlockKind) (inv : CoreInv f) :
    CoreInv (f.NewBlock kind).2 := by
  constructor
  · show ((f.Blocks ++
      [({ ID := f.bid.counter, Kind := kind, Func := f.Name } : Block)]).map
        Block.ID).Nodup
    rw [List.map_append, List.nodup_append]
    refine ⟨inv.blockIDsNodup, List.nodup_singleton _, ?_⟩
    intro x hx hx'
    rcases List.mem_map.mp hx with ⟨b, hb, rfl⟩
    have hlt := inv.blockIDsLt b hb
    have : b.ID = f.bid.counter := by simpa using hx'
    omega
  · intro b' hb'
    rcases List.mem_append.mp hb' with h | h
    · exact Nat.lt_succ_of_lt (inv.blockIDsLt b' h)
    · have : b' = { ID := f.bid.counter, Kind := kind, Func := f.Name } := by
        simpa using h
      rw [this]
      exact Nat.lt_succ_self _
  · intro b' hb'
    rcases List.mem_append.mp hb' with h | h
    · exact inv.blockFuncRef b' h
    · have : b' = { ID := f.bid.counter, Kind := kind, Func := f.Name } := by
        simpa using h
      rw [this]
      exact rfl
  · show (blocksValueIDs (f.Blocks ++
      [({ ID := f.bid.counter, Kind := kind, Func := f.Name } : Block)])).Nodup
    simp only [blocksValueIDs, List.map_append, List.flatten_append,
      List.map_cons, List.map_nil, List.flatten_cons, List.flatten_nil,
      List.append_nil]
    exact inv.valueIDsNodup
  · intro b' hb' w hw
    rcases List.mem_append.mp hb' with h | h
    · exact inv.valueIDsLt b' h w hw
    · have : b' = { ID := f.bid.counter, Kind := kind, Func := f.Name } := by
        simpa using h
      rw [this] at hw
      simp at hw
  · intro b' hb' w hw
    rcases List.mem_append.mp hb' with h | h
    · exact inv.valueBlockRef b' h w hw
    · have : b' = { ID := f.bid.counter, Kind := kind, Func := f.Name } := by
        simpa using h
      rw [this] at hw
      simp at hw
  · intro b' hb'
    rcases List.mem_append.mp hb' with h | h
    · exact inv.valueCreationOrder b' h
    · have : b' = { ID := f.bid.counter, Kind := kind, Func := f.Name } := by
        simpa using h
      rw [this]
      exact List.chain'_nil

theorem coreInv_applyStep (f : Func) (s : BuildStep) (inv : CoreInv f) :
    CoreInv (applyStep f s) := by
  cases s with
  | newBlock kind => exact coreInv_newBlock f kind inv
  | newValue0 b line op t =>
    exact coreInv_addValue f b
      { ID := f.vid.counter, Op := op, Typ := t, Block := b } rfl rfl inv
  | newValue0I b line op t auxint =>
    exact coreInv_addValue f b
      { ID := f.vid.counter, Op := op, Typ := t, AuxInt := auxint, Block := b }
      rfl rfl inv
  | newValue0A b line op t aux =>
    by_cases haux : aux.isInt64 = true
    · have hstate : applyStep f (.newValue0A b line op t aux) = f := by
        simp [applyStep, Block.NewValue0A, haux]
      rw [hstate]
      exact inv
    · have hstate : applyStep f (.newValue0A b line op t aux) =
          { f with vid := { counter := f.vid.counter + 1 },
                   Blocks := addValue b
                     { ID := f.vid.counter, Op := op, Typ := t, Aux := aux,
                       Block := b, Line := line } f.Blocks } := by
        simp [applyStep, Block.NewValue0A, haux, idAlloc.get]
      rw [hstate]
      exact coreInv_addValue f b
        { ID := f.vid.counter, Op := op, Typ := t, Aux := aux, Block := b,
          Line := line } rfl rfl inv
  | newValue0IA b line op t auxint aux =>
    exact coreInv_addValue f b
      { ID := f.vid.counter, Op := op, Typ := t, AuxInt := auxint, Aux := aux,
        Block := b } rfl rfl inv
  | newValue1 b line op t arg =>
    exact coreInv_addValue f b
      { ID := f.vid.counter, Op := op, Typ := t, Args := [arg], Block := b }
      rfl rfl inv
  | newValue1I b line op t auxint arg =>
    exact coreInv_addValue f b
      { ID := f.vid.counter, Op := op, Typ := t, AuxInt := auxint,
        Args := [arg], Block := b } rfl rfl inv
  | newValue1A b line op t aux arg =>
    exact coreInv_addValue f b
      { ID := f.vid.counter, Op := op, Typ := t, Aux := aux, Args := [arg],
        Block := b, Line := line } rfl rfl inv
  | newValue1IA b line op t auxint aux arg =>
    exact coreInv_addValue f b
      { ID := f.vid.counter, Op := op, Typ := t, AuxInt := auxint, Aux := aux,
        Args := [arg], Block := b } rfl rfl inv
  | newValue2 b line op t arg0 arg1 =>
    exact coreInv_addValue f b
      { ID := f.vid.counter, Op := op, Typ := t, Args := [arg0, arg1],
        Block := b, Line := line } rfl rfl inv
  | newValue3 b line op t arg0 arg1 arg2 =>
    exact coreInv_addValue f b
      { ID := f.vid.counter, Op := op, Typ := t, Args := [arg0, arg1, arg2],
        ArgsInline := false, Block := b, Line := line } rfl rfl inv
  | constInt line t c =>
    exact coreInv_addValue f f.Entry
      { ID := f.vid.counter, Op := OpConst, Typ := t, AuxInt := c,
        Block := f.Entry } rfl rfl inv

theorem coreInv_run (steps : List BuildStep) :
    ∀ f : Func, CoreInv f → CoreInv (run f steps) := by
  induction steps with
  | nil => intro f inv; exact inv
  | cons s rest ih => intro f inv; exact ih _ (coreInv_applyStep f s inv)

theorem coreInv_freshFunc : CoreInv freshFunc := by
  constructor <;> simp [freshFunc, blockIDs, allValueIDs, blocksValueIDs]

theorem extendsBlocks_applyStep (f : Func) (s : BuildStep) :
    extendsBlocks f (applyStep f s) := by
  cases s with
  | newBlock kind =>
    intro b hb
    exact ⟨b, List.mem_append_left _ hb, rfl, rfl, rfl, [],
      (List.append_nil _).symm⟩
  | newValue0A b0 line op t aux =>
    by_cases haux : aux.isInt64 = true
    · have hstate : applyStep f (.newValue0A b0 line op t aux) = f := by
        simp [applyStep, Block.NewValue0A, haux]
      rw [hstate]
      intro b hb
      exact ⟨b, hb, rfl, rfl, rfl, [], (List.append_nil _).symm⟩
    · intro b hb
      have hstate : (applyStep f (.newValue0A b0 line op t aux)).Blocks =
          addValue b0
            { ID := f.vid.counter, Op := op, Typ := t, Aux := aux, Block := b0,
              Line := line } f.Blocks := by
        simp [applyStep, Block.NewValue0A, haux, idAlloc.get]
      rw [hstate]
      exact addValue_extends _ _ _ _ hb
  | newValue0 b0 line op t => exact fun b hb => addValue_extends _ _ _ _ hb
  | newValue0I b0 line op t auxint => exact fun b hb => addValue_extends _ _ _ _ hb
  | newValue0IA b0 line op t auxint aux =>
    exact fun b hb => addValue_extends _ _ _ _ hb
  | newValue1 b0 line op t arg => exact fun b hb => addValue_extends _ _ _ _ hb
  | newValue1I b0 line op t auxint arg =>
    exact fun b hb => addValue_extends _ _ _ _ hb
  | newValue1A b0 line op t aux arg =>
    exact fun b hb => addValue_extends _ _ _ _ hb
  | newValue1IA b0 line op t auxint aux arg =>
    exact fun b hb => addValue_extends _ _ _ _ hb
  | newValue2 b0 line op t arg0 arg1 =>
    exact fun b hb => addValue_extends _ _ _ _ hb
  | newValue3 b0 line op t arg0 arg1 arg2 =>
    exact fun b hb => addValue_extends _ _ _ _ hb
  | constInt line t c => exact fun b hb => addValue_extends _ _ _ _ hb

theorem extendsBlocks_run (steps : List BuildStep) :
    ∀ f : Func, extendsBlocks f (run f steps) := by
  induction steps with
  | nil =>
    intro f b hb
    exact ⟨b, hb, rfl, rfl, rfl, [], (List.append_nil _).symm⟩
  | cons s rest ih =>
    intro f b hb
    rcases extendsBlocks_applyStep f s b hb with ⟨b', hb', h1, h2, h3, t, ht⟩
    rcases ih (applyStep f s) b' hb' with ⟨b'', hb'', h1', h2', h3', t', ht'⟩
    refine ⟨b'', hb'', h1'.trans h1, h2'.trans h2, h3'.trans h3, t ++ t', ?_⟩
    rw [ht', ht, List.append_assoc]

/-- C7: after any construction trace, every created Block appears exactly
once in the function's collection (block ids are unique) with its
back-reference set to the function; every Value appears exactly once, in
creation (id) order, in the Value sequence of the block that created it,
with its block back-reference set to that block; and no further operation
of this core removes or relocates a block or a value — any later trace only
extends each existing block's sequence at its end, keeping id, kind and
back-reference. -/
theorem c7_membership_uniqueness (steps more : List BuildStep) :
    CoreInv (run freshFunc steps) ∧
    extendsBlocks (run freshFunc steps) (run (run freshFunc steps) more) :=
  ⟨coreInv_run steps freshFunc coreInv_freshFunc,
   extendsBlocks_run more (run freshFunc steps)⟩

/-- C7 witness: the invariant and the extension property instantiated on a
concrete trace. -/
theorem c7_witness :
    CoreInv (run freshFunc demoTrace) ∧
    extendsBlocks (run freshFunc demoTrace)
      (run (run freshFunc demoTrace) [BuildStep.newBlock BlockPlain]) :=
  c7_membership_uniqueness demoTrace [BuildStep.newBlock BlockPlain]

/-- C6: `ConstInt` always homes its result in the entry Block — whatever
block was most recently the construction target, the produced Value (an
`OpConst` Value carrying `c` in the dedicated integer auxiliary field, no
operands) is appended to the entry block's sequence — and a second call
with the same arguments produces a distinct Value node (fresh id) appended
after the first: no deduplication. -/
theorem c6_constInt_entry_homing (f : Func) (line : Int) (t : Ty) (c : Int)
    (line2 : Int) (t2 : Ty) (c2 : Int) (b : Block)
    (hb : findBlock f f.Entry = some b) :
    (f.ConstInt line t c).1.Op = OpConst ∧
    (f.ConstInt line t c).1.AuxInt = c ∧
    (f.ConstInt line t c).1.Args = [] ∧
    (f.ConstInt line t c).1.Block = f.Entry ∧
    findBlock (f.ConstInt line t c).2 f.Entry =
      some { b with Values := b.Values ++ [(f.ConstInt line t c).1] } ∧
    ((f.ConstInt line t c).2.ConstInt line2 t2 c2).1.ID ≠
      (f.ConstInt line t c).1.ID ∧
    findBlock ((f.ConstInt line t c).2.ConstInt line2 t2 c2).2 f.Entry =
      some { b with Values := b.Values ++
        [(f.ConstInt line t c).1,
         ((f.ConstInt line t c).2.ConstInt line2 t2 c2).1] } := by
  refine ⟨rfl, rfl, rfl, rfl, ?_, ?_, ?_⟩
  · exact find?_addValue f.Entry _ f.Blocks b hb
  · simp [Func.ConstInt, Block.NewValue0I, idAlloc.get]
  · have h1 : findBlock (f.ConstInt line t c).2 f.Entry =
        some { b with Values := b.Values ++ [(f.ConstInt line t c).1] } :=
      find?_addValue f.Entry _ f.Blocks b hb
    have h2 := find?_addValue ((f.ConstInt line t c).2.Entry)
      ((f.ConstInt line t c).2.ConstInt line2 t2 c2).1
      (f.ConstInt line t c).2.Blocks _ h1
    simpa [List.append_assoc] using h2

/-- C6 witness: the theorem instantiated on a function with one (entry)
block and two `ConstInt` calls with identical arguments. -/
theorem c6_witness :
    (entryFunc.ConstInt 1 TInt64 5).1.Op = OpConst ∧
    (entryFunc.ConstInt 1 TInt64 5).1.AuxInt = 5 ∧
    (entryFunc.ConstInt 1 TInt64 5).1.Args = [] ∧
    (entryFunc.ConstInt 1 TInt64 5).1.Block = entryFunc.Entry ∧
    findBlock (entryFunc.ConstInt 1 TInt64 5).2 entryFunc.Entry =
      some { ID := 0, Kind := BlockPlain, Func := "f",
             Values := [] ++ [(entryFunc.ConstInt 1 TInt64 5).1] } ∧
    ((entryFunc.ConstInt 1 TInt64 5).2.ConstInt 1 TInt64 5).1.ID ≠
      (entryFunc.ConstInt 1 TInt64 5).1.ID ∧
    findBlock ((entryFunc.ConstInt 1 TInt64 5).2.ConstInt 1 TInt64 5).2
        entryFunc.Entry =
      some { ID := 0, Kind := BlockPlain, Func := "f",
             Values := [] ++
               [(entryFunc.ConstInt 1 TInt64 5).1,
                ((entryFunc.ConstInt 1 TInt64 5).2.ConstInt 1 TInt64 5).1] } :=
  c6_constInt_entry_homing entryFunc 1 TInt64 5 1 TInt64 5
    { ID := 0, Kind := BlockPlain, Func := "f", Values := [] } (by decide)

end GoSSA
